import Mathlib

/-!
Shallow embedding of `TauCalibrator` (src/Root/TauCalibrator.cxx) from the
xAODAnaHelpers repository, together with theorems checking the repository's
specification against the code.

The embedding models the per-event systematic fan-out loop of
`TauCalibrator::execute` and the parts of `TauCalibrator::initialize` the
claims need.  Tau objects are records carrying the one kinematic field the
algorithm reads (`pt`), a flag for the presence of a truth counterpart
(`xAOD::TauHelpers::getTruthParticle`), and the provenance link set by
`xAOD::setOriginalObjectLink`.  The event store (`evtStore()`) is an
association list keyed by strings; `record` fails on a key collision and
otherwise appends.  The external `TauSmearingTool` is a parameter: a pair of
functions for `applySystematicVariation` and `applyCorrection`.
-/

/-- `CP::CorrectionCode` values observed by the algorithm
(see the comment at src/Root/TauCalibrator.cxx:220). -/
inductive CorrectionCode where
  | Ok
  | OutOfValidityRange
  | Error
deriving DecidableEq, Repr

/-- An `xAOD::TauJet` as the algorithm sees it: its transverse momentum,
whether `xAOD::TauHelpers::getTruthParticle` finds a truth counterpart,
and the original-object provenance link (index into the input collection),
`none` until `xAOD::setOriginalObjectLink` succeeds. -/
structure TauJet where
  pt : Int
  hasTruth : Bool
  origLink : Option Nat := none
deriving DecidableEq, Repr

/-- The external `TauAnalysisTools::TauSmearingTool`, reduced to the two
operations `execute` invokes.  `applySystematicVariation` returns `true` for
`CP::SystematicCode::Ok`; `applyCorrection` is keyed by the active variation
(the tool's mutable configuration) and returns the correction code together
with the (possibly modified) tau. -/
structure TauSmearingTool where
  applySystematicVariation : String → Bool
  applyCorrection : String → TauJet → CorrectionCode × TauJet

/-- A value held by the transient event store: an owning tau collection
(`xAOD::TauJetContainer`, e.g. the shallow copy), its auxiliary store
(`xAOD::ShallowAuxContainer`), a non-owning `ConstDataVector` view
(`SG::VIEW_ELEMENTS`), a vector of strings (the systematics manifest), or
the `xAOD::EventInfo` object. -/
inductive StoreVal where
  | tauColl (ts : List TauJet)
  | auxStore (ts : List TauJet)
  | viewColl (ts : List TauJet)
  | strVec (ns : List String)
  | evtInfo
deriving DecidableEq, Repr

/-- The event-scoped key-value store (`evtStore()` / `TStore`). -/
abbrev Store := List (String × StoreVal)

/-- `evtStore()->retrieve`: look a key up (first binding wins). -/
def Store.lookup : Store → String → Option StoreVal
  | [], _ => none
  | (k, v) :: st, key => if k = key then some v else Store.lookup st key

/-- `evtStore()->record`: fails (returns `none`) on a name collision,
otherwise appends the new binding. -/
def Store.record (st : Store) (key : String) (v : StoreVal) : Option Store :=
  match st.lookup key with
  | some _ => none
  | none => some (st ++ [(key, v)])

/-- Messages the algorithm emits at warning/error severity inside the loop. -/
inductive LogMsg where
  | warnCorrectionError (syst : String) (idx : Nat)
  | errOrigLink (syst : String)
  | errConfigSyst (syst : String)
deriving DecidableEq, Repr

/-- The configuration surface of `TauCalibrator` that `execute` reads,
after `initialize` has run (`m_inContainerName`, `m_outContainerName`,
`m_sort`, `isMC()`, `m_outputAlgoSystNames`, `m_eventInfoContainerName`). -/
structure Config where
  inContainerName : String
  outContainerName : String
  sort : Bool
  isMC : Bool
  outputAlgoSystNames : String
  eventInfoContainerName : String
deriving DecidableEq, Repr

/-- `m_outSCContainerName = m_outContainerName + "ShallowCopy"`
(src/Root/TauCalibrator.cxx:97). -/
def Config.outSCContainerName (cfg : Config) : String :=
  cfg.outContainerName ++ "ShallowCopy"

/-- `m_outSCAuxContainerName = m_outSCContainerName + "Aux."`
(src/Root/TauCalibrator.cxx:98). -/
def Config.outSCAuxContainerName (cfg : Config) : String :=
  cfg.outSCContainerName ++ "Aux."

/-- One iteration of the calibration loop body
(src/Root/TauCalibrator.cxx:216-229) on a single tau at position `idx`:
if the tau has a truth counterpart, apply the correction (the tau becomes
whatever the tool produced) and log a warning exactly when the tool returns
`Error`; otherwise leave the tau untouched. -/
def calibrateTau (tool : TauSmearingTool) (syst : String) (idx : Nat)
    (t : TauJet) : TauJet × List LogMsg :=
  if t.hasTruth then
    let r := tool.applyCorrection syst t
    (r.2, if r.1 = CorrectionCode.Error then [LogMsg.warnCorrectionError syst idx] else [])
  else (t, [])

/-- The calibration loop over the shallow-copied collection
(src/Root/TauCalibrator.cxx:216-229), threading the index `idx`. -/
def calibrateList (tool : TauSmearingTool) (syst : String) :
    Nat → List TauJet → List TauJet × List LogMsg
  | _, [] => ([], [])
  | idx, t :: ts =>
    let h := calibrateTau tool syst idx t
    let r := calibrateList tool syst (idx + 1) ts
    (h.1 :: r.1, h.2 ++ r.2)

/-- `xAOD::setOriginalObjectLink` on success: link the copy at position `i`
back to input element `i`.  Indexing starts at `start`. -/
def setLinksFrom : Nat → List TauJet → List TauJet
  | _, [] => []
  | i, t :: ts => { t with origLink := some i } :: setLinksFrom (i + 1) ts

/-- Links for a whole copied collection (indices from 0). -/
def setLinks (l : List TauJet) : List TauJet :=
  setLinksFrom 0 l

/-- Modelled from the spec: `HelperFunctions::makeSubsetCont` is repository
code not under `src/`; per the spec ("save pointers in ConstDataVector with
same order" / "build a read-only view ... preserving relative order") it
copies every element pointer of the calibrated collection into the view, in
order. -/
def makeSubsetCont (l : List TauJet) : List TauJet :=
  l

/-- Modelled from the spec: `HelperFunctions::sort_pt` is repository code not
under `src/`; per the spec it is the descending-transverse-momentum
comparison, i.e. `a` precedes `b` when `a.pt ≥ b.pt`. -/
def ptGe (a b : TauJet) : Prop :=
  b.pt ≤ a.pt

instance : DecidableRel ptGe :=
  fun a b => inferInstanceAs (Decidable (b.pt ≤ a.pt))

instance : IsTotal TauJet ptGe :=
  ⟨fun a b => le_total b.pt a.pt⟩

instance : IsTrans TauJet ptGe :=
  ⟨fun _ _ _ hab hbc => le_trans hbc hab⟩

/-- `std::sort(calibTausCDV->begin(), calibTausCDV->end(), sort_pt)`
(src/Root/TauCalibrator.cxx:246), realised as a sort by non-increasing
transverse momentum. -/
def sortPt (l : List TauJet) : List TauJet :=
  List.insertionSort ptGe l

/-- The per-variation body of the fan-out loop
(src/Root/TauCalibrator.cxx:203-247), up to but excluding the store records:
shallow-copy the input, calibrate it when in simulation mode, set the
original-object links (`linkOk` says whether `setOriginalObjectLink`
succeeds; on failure an error is logged and the links stay unset), build the
`ConstDataVector` view and sort it if requested.  Returns the final copied
collection, the view, and the log messages of this iteration. -/
def processOneSyst (cfg : Config) (tool : TauSmearingTool) (linkOk : Bool)
    (inTaus : List TauJet) (syst : String) :
    List TauJet × List TauJet × List LogMsg :=
  let cal := if cfg.isMC then calibrateList tool syst 0 inTaus else (inTaus, [])
  let linked := if linkOk then setLinks cal.1 else cal.1
  let log := cal.2 ++ (if linkOk then [] else [LogMsg.errOrigLink syst])
  let cdv0 := makeSubsetCont linked
  let cdv := if cfg.sort then sortPt cdv0 else cdv0
  (linked, cdv, log)

/-- The loop over systematics (src/Root/TauCalibrator.cxx:183-261).  For each
variation: configure the tool (failure is fatal: log an error and return the
failure flag with the store as mutated so far), run the body, and record the
shallow copy, its auxiliary store and the view under the variation-qualified
names (a record collision is fatal via `ANA_CHECK`).  Returns the success
flag, the store and the accumulated log. -/
def execLoop (cfg : Config) (tool : TauSmearingTool) (linkOk : Bool)
    (inTaus : List TauJet) :
    List String → Store → List LogMsg → Bool × Store × List LogMsg
  | [], st, log => (true, st, log)
  | syst :: rest, st, log =>
    if tool.applySystematicVariation syst then
      match st.record (cfg.outSCContainerName ++ syst)
          (StoreVal.tauColl (processOneSyst cfg tool linkOk inTaus syst).1) with
      | none => (false, st, log ++ (processOneSyst cfg tool linkOk inTaus syst).2.2)
      | some st1 =>
        match st1.record (cfg.outSCAuxContainerName ++ syst)
            (StoreVal.auxStore (processOneSyst cfg tool linkOk inTaus syst).1) with
        | none => (false, st1, log ++ (processOneSyst cfg tool linkOk inTaus syst).2.2)
        | some st2 =>
          match st2.record (cfg.outContainerName ++ syst)
              (StoreVal.viewColl (processOneSyst cfg tool linkOk inTaus syst).2.1) with
          | none => (false, st2, log ++ (processOneSyst cfg tool linkOk inTaus syst).2.2)
          | some st3 =>
            execLoop cfg tool linkOk inTaus rest st3
              (log ++ (processOneSyst cfg tool linkOk inTaus syst).2.2)
    else (false, st, log ++ [LogMsg.errConfigSyst syst])

/-- The result of one call to `TauCalibrator::execute`: the returned
`StatusCode` (`true` for `SUCCESS`), the event store afterwards, and the log. -/
structure ExecResult where
  success : Bool
  store : Store
  log : List LogMsg
deriving DecidableEq, Repr

/-- The final step of `TauCalibrator::execute`
(src/Root/TauCalibrator.cxx:263-273): on loop success, record the manifest
of variation names under `m_outputAlgoSystNames` (a collision is fatal via
`ANA_CHECK`); a loop failure is propagated. -/
def finishExec (cfg : Config) (systList : List String) :
    Bool × Store × List LogMsg → ExecResult
  | (true, st1, log1) =>
    match st1.record cfg.outputAlgoSystNames (StoreVal.strVec systList) with
    | some st2 => ⟨true, st2, log1⟩
    | none => ⟨false, st1, log1⟩
  | (false, st1, log1) => ⟨false, st1, log1⟩

/-- `TauCalibrator::execute` (src/Root/TauCalibrator.cxx:156-275): retrieve
the `EventInfo` and the input tau collection (either retrieval failing is
fatal and nothing is published), run the fan-out loop over `systList`
(`m_systList`), and on success record the manifest of variation names under
`m_outputAlgoSystNames` (`finishExec`). -/
def execute (cfg : Config) (tool : TauSmearingTool) (linkOk : Bool)
    (systList : List String) (st : Store) : ExecResult :=
  match st.lookup cfg.eventInfoContainerName with
  | some StoreVal.evtInfo =>
    match st.lookup cfg.inContainerName with
    | some (StoreVal.tauColl inTaus) =>
      finishExec cfg systList (execLoop cfg tool linkOk inTaus systList st [])
    | _ => ⟨false, st, []⟩
  | _ => ⟨false, st, []⟩

/-- Modelled from the spec: `HelperFunctions::getListofSystematics`
(called at src/Root/TauCalibrator.cxx:130) is repository code not under
`src/`; per the spec the variation list is "the correction tool's
recommended set intersected with any user-restricted subset" and "must
contain at least the implicit baseline entry" (the empty name).  An empty
`systName` requests the nominal configuration only; `"All"` requests every
recommended variation. -/
def getListofSystematics (recSyst : List String) (systName : String)
    (systVal : Int) : List String :=
  let _ := systVal
  if systName = "" then [""]
  else if systName = "All" then "" :: recSyst
  else "" :: recSyst.filter (fun s => s = systName)

/-- The `m_systList` computation of `TauCalibrator::initialize`
(src/Root/TauCalibrator.cxx:130). -/
def initSystList (recSyst : List String) (systName : String)
    (systVal : Int) : List String :=
  getListofSystematics recSyst systName systVal


/-! ### Concrete objects for the specification scenarios -/

/-- The input collection of the spec scenario: three tau objects, the third
without a truth counterpart. -/
def demoTaus : List TauJet :=
  [⟨20, true, none⟩, ⟨10, true, none⟩, ⟨30, false, none⟩]

/-- A deterministic correction tool that accepts every variation, leaves the
baseline untouched and shifts `pt` by one for any other variation. -/
def demoTool : TauSmearingTool :=
  ⟨fun _ => true,
   fun s t =>
     if s = "" then (CorrectionCode.Ok, t)
     else (CorrectionCode.Ok, { t with pt := t.pt + 1 })⟩

/-- A tool that accepts only the baseline variation (configuration for any
named variation fails). -/
def badCfgTool : TauSmearingTool :=
  ⟨fun s => s == "", fun _ t => (CorrectionCode.Ok, t)⟩

/-- A tool whose per-object correction always reports `Error`, leaving the
object unchanged. -/
def errTool : TauSmearingTool :=
  ⟨fun _ => true, fun _ t => (CorrectionCode.Error, t)⟩

/-- The scenario configuration: output base name `Out`, sorting off,
simulation mode on. -/
def demoCfg : Config :=
  ⟨"TauJets", "Out", false, true, "TauCalib_Syst", "EventInfo"⟩

/-- The scenario configuration with sorting requested. -/
def demoCfgSorted : Config :=
  ⟨"TauJets", "Out", true, true, "TauCalib_Syst", "EventInfo"⟩

/-- The scenario configuration with simulation mode off (real data). -/
def demoCfgData : Config :=
  ⟨"TauJets", "Out", false, false, "TauCalib_Syst", "EventInfo"⟩

/-- The event store at the start of the scenario event. -/
def demoStore : Store :=
  [("EventInfo", StoreVal.evtInfo), ("TauJets", StoreVal.tauColl demoTaus)]

/-- The scenario variation list: baseline plus one named variation. -/
def demoSysts : List String :=
  ["", "TAUS_TES_TOTAL_1up"]

/-! ### Helper lemmas about the event store -/

/-- The keys of the store, in binding order. -/
def Store.keys (st : Store) : List String :=
  st.map Prod.fst

theorem Store.lookup_eq_none_iff (st : Store) (k : String) :
    st.lookup k = none ↔ k ∉ st.keys := by
  induction st with
  | nil => simp [Store.lookup, Store.keys]
  | cons hd tl ih =>
    obtain ⟨k', v⟩ := hd
    by_cases hk : k' = k
    · subst hk
      simp [Store.lookup, Store.keys]
    · simp [Store.lookup, Store.keys, hk, ih]
      intro h
      exact fun hh => hk hh.symm

theorem Store.lookup_append_of_none {st : Store} {k : String}
    (h : st.lookup k = none) (st2 : Store) :
    (st ++ st2).lookup k = st2.lookup k := by
  induction st with
  | nil => rfl
  | cons hd tl ih =>
    obtain ⟨k', v⟩ := hd
    by_cases hk : k' = k
    · subst hk
      simp [Store.lookup] at h
    · simp [Store.lookup, hk] at h ⊢
      exact ih h

theorem Store.lookup_append_of_some {st : Store} {k : String} {v : StoreVal}
    (h : st.lookup k = some v) (st2 : Store) :
    (st ++ st2).lookup k = some v := by
  induction st with
  | nil => simp [Store.lookup] at h
  | cons hd tl ih =>
    obtain ⟨k', v'⟩ := hd
    by_cases hk : k' = k
    · subst hk
      simp [Store.lookup] at h ⊢
      exact h
    · simp [Store.lookup, hk] at h ⊢
      exact ih h

theorem Store.record_keys {st st' : Store} {k : String} {v : StoreVal}
    (h : st.record k v = some st') :
    st'.keys = st.keys ++ [k] := by
  unfold Store.record at h
  cases hl : st.lookup k with
  | none => rw [hl] at h; cases h; simp [Store.keys]
  | some _ => rw [hl] at h; cases h

theorem Store.record_eq_none_iff (st : Store) (k : String) (v : StoreVal) :
    st.record k v = none ↔ k ∈ st.keys := by
  unfold Store.record
  cases hl : st.lookup k with
  | none =>
    simp only []
    constructor
    · intro h; cases h
    · intro hmem
      exact absurd hmem ((Store.lookup_eq_none_iff st k).mp hl)
  | some w =>
    constructor
    · intro _
      by_contra hmem
      rw [(Store.lookup_eq_none_iff st k).mpr hmem] at hl
      cases hl
    · intro _
      rfl

theorem Store.lookup_record_self {st st' : Store} {k : String} {v : StoreVal}
    (h : st.record k v = some st') :
    st'.lookup k = some v := by
  unfold Store.record at h
  cases hl : st.lookup k with
  | none =>
    rw [hl] at h
    cases h
    rw [Store.lookup_append_of_none hl]
    simp [Store.lookup]
  | some _ => rw [hl] at h; cases h

theorem Store.lookup_record_mono {st st' : Store} {k k' : String}
    {v v' : StoreVal} (h : st.record k' v' = some st')
    (hl : st.lookup k = some v) :
    st'.lookup k = some v := by
  unfold Store.record at h
  cases hl' : st.lookup k' with
  | none =>
    rw [hl'] at h
    cases h
    exact Store.lookup_append_of_some hl _
  | some _ => rw [hl'] at h; cases h

/-! ### Helper lemmas about the fan-out loop -/

theorem execLoop_mono (cfg : Config) (tool : TauSmearingTool) (lk : Bool)
    (inTaus : List TauJet) (l : List String) :
    ∀ (st : Store) (log : List LogMsg) {k : String} {v : StoreVal},
      st.lookup k = some v →
      (execLoop cfg tool lk inTaus l st log).2.1.lookup k = some v := by
  induction l with
  | nil => intro st log k v h; exact h
  | cons syst rest ih =>
    intro st log k v h
    unfold execLoop
    by_cases hc : tool.applySystematicVariation syst = true
    · rw [if_pos hc]
      split
      · exact h
      · next st1 h1 =>
        split
        · exact Store.lookup_record_mono h1 h
        · next st2 h2 =>
          split
          · exact Store.lookup_record_mono h2 (Store.lookup_record_mono h1 h)
          · next st3 h3 =>
            exact ih st3 _ (Store.lookup_record_mono h3
              (Store.lookup_record_mono h2 (Store.lookup_record_mono h1 h)))
    · rw [if_neg hc]
      exact h

theorem execLoop_append (cfg : Config) (tool : TauSmearingTool) (lk : Bool)
    (inTaus : List TauJet) (l1 l2 : List String) :
    ∀ (st : Store) (log : List LogMsg),
      execLoop cfg tool lk inTaus (l1 ++ l2) st log =
        (let r := execLoop cfg tool lk inTaus l1 st log
         if r.1 then execLoop cfg tool lk inTaus l2 r.2.1 r.2.2 else r) := by
  induction l1 with
  | nil => intro st log; rfl
  | cons syst rest ih =>
    intro st log
    rw [List.cons_append, execLoop, execLoop]
    cases hb : tool.applySystematicVariation syst with
    | false => rfl
    | true =>
      rw [if_pos rfl, if_pos rfl]
      split
      · rfl
      · next st1 h1 =>
        split
        · rfl
        · next st2 h2 =>
          split
          · rfl
          · next st3 h3 =>
            exact ih st3 _

theorem execLoop_publishes (cfg : Config) (tool : TauSmearingTool) (lk : Bool)
    (inTaus : List TauJet) (l : List String) :
    ∀ (st : Store) (log : List LogMsg) (st' : Store) (log' : List LogMsg),
      execLoop cfg tool lk inTaus l st log = (true, st', log') →
      ∀ syst ∈ l,
        (∃ c, st'.lookup (cfg.outSCContainerName ++ syst) = some (StoreVal.tauColl c)) ∧
        (∃ c, st'.lookup (cfg.outSCAuxContainerName ++ syst) = some (StoreVal.auxStore c)) ∧
        (∃ c, st'.lookup (cfg.outContainerName ++ syst) = some (StoreVal.viewColl c)) := by
  induction l with
  | nil => intro st log st' log' _ syst hmem; cases hmem
  | cons s0 rest ih =>
    intro st log st' log' hrun syst hmem
    unfold execLoop at hrun
    by_cases hc : tool.applySystematicVariation s0 = true
    · rw [if_pos hc] at hrun
      split at hrun
      · cases hrun
      · next st1 h1 =>
        split at hrun
        · cases hrun
        · next st2 h2 =>
          split at hrun
          · cases hrun
          · next st3 h3 =>
            rcases List.mem_cons.mp hmem with heq | hmem2
            · subst heq
              have hm1 := execLoop_mono cfg tool lk inTaus rest st3
                (log ++ (processOneSyst cfg tool lk inTaus syst).2.2)
                (Store.lookup_record_mono h3
                  (Store.lookup_record_mono h2 (Store.lookup_record_self h1)))
              have hm2 := execLoop_mono cfg tool lk inTaus rest st3
                (log ++ (processOneSyst cfg tool lk inTaus syst).2.2)
                (Store.lookup_record_mono h3 (Store.lookup_record_self h2))
              have hm3 := execLoop_mono cfg tool lk inTaus rest st3
                (log ++ (processOneSyst cfg tool lk inTaus syst).2.2)
                (Store.lookup_record_self h3)
              rw [hrun] at hm1 hm2 hm3
              exact ⟨⟨_, hm1⟩, ⟨_, hm2⟩, ⟨_, hm3⟩⟩
            · exact ih st3 _ st' log' hrun syst hmem2
    · rw [if_neg hc] at hrun
      cases hrun

theorem Store.record_none_congr {st1 st2 : Store} (h : st1.keys = st2.keys)
    (k : String) (v1 v2 : StoreVal) :
    st1.record k v1 = none ↔ st2.record k v2 = none := by
  rw [Store.record_eq_none_iff, Store.record_eq_none_iff, h]

theorem execLoop_keys_congr (cfg : Config) (tool1 tool2 : TauSmearingTool)
    (lk1 lk2 : Bool) (in1 in2 : List TauJet)
    (hag : tool1.applySystematicVariation = tool2.applySystematicVariation)
    (l : List String) :
    ∀ (st1 st2 : Store) (log1 log2 : List LogMsg), st1.keys = st2.keys →
      (execLoop cfg tool1 lk1 in1 l st1 log1).1
        = (execLoop cfg tool2 lk2 in2 l st2 log2).1 ∧
      (execLoop cfg tool1 lk1 in1 l st1 log1).2.1.keys
        = (execLoop cfg tool2 lk2 in2 l st2 log2).2.1.keys := by
  induction l with
  | nil => intro st1 st2 log1 log2 hk; exact ⟨rfl, hk⟩
  | cons syst rest ih =>
    intro st1 st2 log1 log2 hk
    unfold execLoop
    rw [hag]
    cases hb : tool2.applySystematicVariation syst with
    | false => exact ⟨rfl, hk⟩
    | true =>
      rw [if_pos rfl, if_pos rfl]
      cases h1 : st1.record (cfg.outSCContainerName ++ syst)
          (StoreVal.tauColl (processOneSyst cfg tool1 lk1 in1 syst).1) with
      | none =>
        have h1x : st2.record (cfg.outSCContainerName ++ syst)
            (StoreVal.tauColl (processOneSyst cfg tool2 lk2 in2 syst).1) = none :=
          (Store.record_none_congr hk _ _ _).mp h1
        simp only [h1x]
        exact ⟨trivial, hk⟩
      | some st1a =>
        cases h1x : st2.record (cfg.outSCContainerName ++ syst)
            (StoreVal.tauColl (processOneSyst cfg tool2 lk2 in2 syst).1) with
        | none =>
          rw [(Store.record_none_congr hk _ _ _).mpr h1x] at h1
          cases h1
        | some st2a =>
          have hka : st1a.keys = st2a.keys := by
            rw [Store.record_keys h1, Store.record_keys h1x, hk]
          simp only [h1x]
          cases h2 : st1a.record (cfg.outSCAuxContainerName ++ syst)
              (StoreVal.auxStore (processOneSyst cfg tool1 lk1 in1 syst).1) with
          | none =>
            have h2x : st2a.record (cfg.outSCAuxContainerName ++ syst)
                (StoreVal.auxStore (processOneSyst cfg tool2 lk2 in2 syst).1) = none :=
              (Store.record_none_congr hka _ _ _).mp h2
            simp only [h2x]
            exact ⟨trivial, hka⟩
          | some st1b =>
            cases h2x : st2a.record (cfg.outSCAuxContainerName ++ syst)
                (StoreVal.auxStore (processOneSyst cfg tool2 lk2 in2 syst).1) with
            | none =>
              rw [(Store.record_none_congr hka _ _ _).mpr h2x] at h2
              cases h2
            | some st2b =>
              have hkb : st1b.keys = st2b.keys := by
                rw [Store.record_keys h2, Store.record_keys h2x, hka]
              simp only [h2x]
              cases h3 : st1b.record (cfg.outContainerName ++ syst)
                  (StoreVal.viewColl (processOneSyst cfg tool1 lk1 in1 syst).2.1) with
              | none =>
                have h3x : st2b.record (cfg.outContainerName ++ syst)
                    (StoreVal.viewColl (processOneSyst cfg tool2 lk2 in2 syst).2.1) = none :=
                  (Store.record_none_congr hkb _ _ _).mp h3
                simp only [h3x]
                exact ⟨trivial, hkb⟩
              | some st1c =>
                cases h3x : st2b.record (cfg.outContainerName ++ syst)
                    (StoreVal.viewColl (processOneSyst cfg tool2 lk2 in2 syst).2.1) with
                | none =>
                  rw [(Store.record_none_congr hkb _ _ _).mpr h3x] at h3
                  cases h3
                | some st2c =>
                  have hkc : st1c.keys = st2c.keys := by
                    rw [Store.record_keys h3, Store.record_keys h3x, hkb]
                  exact ih st1c st2c _ _ hkc


theorem execute_eq_run (cfg : Config) (tool : TauSmearingTool) (lk : Bool)
    (sl : List String) (st : Store) (inTaus : List TauJet)
    (hev : st.lookup cfg.eventInfoContainerName = some StoreVal.evtInfo)
    (hin : st.lookup cfg.inContainerName = some (StoreVal.tauColl inTaus)) :
    execute cfg tool lk sl st
      = finishExec cfg sl (execLoop cfg tool lk inTaus sl st []) := by
  unfold execute
  rw [hev, hin]

theorem execute_eq_fail_ev (cfg : Config) (tool : TauSmearingTool) (lk : Bool)
    (sl : List String) (st : Store)
    (h : st.lookup cfg.eventInfoContainerName ≠ some StoreVal.evtInfo) :
    execute cfg tool lk sl st = ⟨false, st, []⟩ := by
  unfold execute
  cases hev : st.lookup cfg.eventInfoContainerName with
  | none => rfl
  | some v =>
    cases v with
    | tauColl ts => rfl
    | auxStore ts => rfl
    | viewColl ts => rfl
    | strVec ns => rfl
    | evtInfo => exact absurd hev h

theorem execute_eq_fail_in (cfg : Config) (tool : TauSmearingTool) (lk : Bool)
    (sl : List String) (st : Store)
    (hev : st.lookup cfg.eventInfoContainerName = some StoreVal.evtInfo)
    (h : ∀ ts, st.lookup cfg.inContainerName ≠ some (StoreVal.tauColl ts)) :
    execute cfg tool lk sl st = ⟨false, st, []⟩ := by
  unfold execute
  rw [hev]
  cases hin : st.lookup cfg.inContainerName with
  | none => rfl
  | some w =>
    cases w with
    | tauColl ts => exact absurd hin (h ts)
    | auxStore ts => rfl
    | viewColl ts => rfl
    | strVec ns => rfl
    | evtInfo => rfl

theorem execute_success_congr (cfg : Config) (tool1 tool2 : TauSmearingTool)
    (lk1 lk2 : Bool) (sl : List String) (st : Store)
    (hag : tool1.applySystematicVariation = tool2.applySystematicVariation) :
    (execute cfg tool1 lk1 sl st).success = (execute cfg tool2 lk2 sl st).success := by
  by_cases hev : st.lookup cfg.eventInfoContainerName = some StoreVal.evtInfo
  · by_cases hex : ∃ ts, st.lookup cfg.inContainerName = some (StoreVal.tauColl ts)
    · obtain ⟨inTaus, hin⟩ := hex
      rw [execute_eq_run cfg tool1 lk1 sl st inTaus hev hin,
          execute_eq_run cfg tool2 lk2 sl st inTaus hev hin]
      obtain ⟨hflag, hkeys⟩ :=
        execLoop_keys_congr cfg tool1 tool2 lk1 lk2 inTaus inTaus hag sl st st [] [] rfl
      rcases hr1 : execLoop cfg tool1 lk1 inTaus sl st [] with ⟨b1, st1, log1⟩
      rcases hr2 : execLoop cfg tool2 lk2 inTaus sl st [] with ⟨b2, st2, log2⟩
      rw [hr1, hr2] at hflag hkeys
      simp only at hflag hkeys
      subst hflag
      cases b1 with
      | false => rfl
      | true =>
        cases hm1 : st1.record cfg.outputAlgoSystNames (StoreVal.strVec sl) with
        | none =>
          have hm2 : st2.record cfg.outputAlgoSystNames (StoreVal.strVec sl) = none :=
            (Store.record_none_congr hkeys _ _ _).mp hm1
          simp only [finishExec, hm1, hm2]
        | some st1m =>
          cases hm2 : st2.record cfg.outputAlgoSystNames (StoreVal.strVec sl) with
          | none =>
            rw [(Store.record_none_congr hkeys _ _ _).mpr hm2] at hm1
            cases hm1
          | some st2m =>
            simp only [finishExec, hm1, hm2]
    · push_neg at hex
      rw [execute_eq_fail_in cfg tool1 lk1 sl st hev hex,
          execute_eq_fail_in cfg tool2 lk2 sl st hev hex]
  · rw [execute_eq_fail_ev cfg tool1 lk1 sl st hev,
        execute_eq_fail_ev cfg tool2 lk2 sl st hev]

theorem execute_success_shape (cfg : Config) (tool : TauSmearingTool) (lk : Bool)
    (sl : List String) (st : Store)
    (h : (execute cfg tool lk sl st).success = true) :
    ∃ inTaus st1 log1 st2,
      st.lookup cfg.eventInfoContainerName = some StoreVal.evtInfo ∧
      st.lookup cfg.inContainerName = some (StoreVal.tauColl inTaus) ∧
      execLoop cfg tool lk inTaus sl st [] = (true, st1, log1) ∧
      st1.record cfg.outputAlgoSystNames (StoreVal.strVec sl) = some st2 ∧
      execute cfg tool lk sl st = ⟨true, st2, log1⟩ := by
  by_cases hev : st.lookup cfg.eventInfoContainerName = some StoreVal.evtInfo
  · by_cases hex : ∃ ts, st.lookup cfg.inContainerName = some (StoreVal.tauColl ts)
    · obtain ⟨inTaus, hin⟩ := hex
      have he := execute_eq_run cfg tool lk sl st inTaus hev hin
      rw [he] at h
      rcases hr : execLoop cfg tool lk inTaus sl st [] with ⟨b, st1, log1⟩
      rw [hr] at h he
      cases b with
      | false => exact Bool.noConfusion h
      | true =>
        rw [finishExec] at h he
        cases hrec : st1.record cfg.outputAlgoSystNames (StoreVal.strVec sl) with
        | none => rw [hrec] at h; exact Bool.noConfusion h
        | some st2 =>
          rw [hrec] at he
          exact ⟨inTaus, st1, log1, st2, hev, hin, hr, hrec, he⟩
    · push_neg at hex
      rw [execute_eq_fail_in cfg tool lk sl st hev hex] at h
      exact Bool.noConfusion h
  · rw [execute_eq_fail_ev cfg tool lk sl st hev] at h
    exact Bool.noConfusion h

/-! ### Lemmas about the per-variation body -/

theorem calibrateList_length (tool : TauSmearingTool) (syst : String) :
    ∀ (idx : Nat) (l : List TauJet),
      (calibrateList tool syst idx l).1.length = l.length := by
  intro idx l
  induction l generalizing idx with
  | nil => rfl
  | cons t ts ih => simp [calibrateList, ih]

theorem setLinksFrom_length : ∀ (i : Nat) (l : List TauJet),
    (setLinksFrom i l).length = l.length := by
  intro i l
  induction l generalizing i with
  | nil => rfl
  | cons t ts ih => simp [setLinksFrom, ih]

theorem setLinksFrom_map_origLink : ∀ (i : Nat) (l : List TauJet),
    (setLinksFrom i l).map TauJet.origLink = (List.range' i l.length).map some := by
  intro i l
  induction l generalizing i with
  | nil => rfl
  | cons t ts ih => simp [setLinksFrom, List.range'_succ, ih]

theorem setLinks_map_origLink (l : List TauJet) :
    (setLinks l).map TauJet.origLink = (List.range l.length).map some := by
  rw [setLinks, setLinksFrom_map_origLink, List.range_eq_range']

theorem setLinksFrom_map_pt : ∀ (i : Nat) (l : List TauJet),
    (setLinksFrom i l).map TauJet.pt = l.map TauJet.pt := by
  intro i l
  induction l generalizing i with
  | nil => rfl
  | cons t ts ih => simp [setLinksFrom, ih]

theorem setLinksFrom_map_hasTruth : ∀ (i : Nat) (l : List TauJet),
    (setLinksFrom i l).map TauJet.hasTruth = l.map TauJet.hasTruth := by
  intro i l
  induction l generalizing i with
  | nil => rfl
  | cons t ts ih => simp [setLinksFrom, ih]

theorem sortPt_perm (l : List TauJet) : (sortPt l).Perm l :=
  List.perm_insertionSort ptGe l

theorem sortPt_sorted (l : List TauJet) : List.Sorted ptGe (sortPt l) :=
  List.sorted_insertionSort ptGe l

theorem processOneSyst_copies (cfg : Config) (tool : TauSmearingTool)
    (lk : Bool) (inTaus : List TauJet) (syst : String) :
    (processOneSyst cfg tool lk inTaus syst).1
      = (if lk then
          setLinks (if cfg.isMC then (calibrateList tool syst 0 inTaus).1 else inTaus)
        else (if cfg.isMC then (calibrateList tool syst 0 inTaus).1 else inTaus)) := by
  unfold processOneSyst
  cases hmc : cfg.isMC <;> cases hlk : lk <;> rfl

theorem processOneSyst_view_sort (cfg : Config) (tool : TauSmearingTool)
    (lk : Bool) (inTaus : List TauJet) (syst : String) (hs : cfg.sort = true) :
    (processOneSyst cfg tool lk inTaus syst).2.1
      = sortPt (processOneSyst cfg tool lk inTaus syst).1 := by
  unfold processOneSyst makeSubsetCont
  rw [hs]
  rfl

theorem processOneSyst_view_nosort (cfg : Config) (tool : TauSmearingTool)
    (lk : Bool) (inTaus : List TauJet) (syst : String) (hs : cfg.sort = false) :
    (processOneSyst cfg tool lk inTaus syst).2.1
      = (processOneSyst cfg tool lk inTaus syst).1 := by
  unfold processOneSyst makeSubsetCont
  rw [hs]
  rfl

theorem processOneSyst_copies_length (cfg : Config) (tool : TauSmearingTool)
    (lk : Bool) (inTaus : List TauJet) (syst : String) :
    (processOneSyst cfg tool lk inTaus syst).1.length = inTaus.length := by
  rw [processOneSyst_copies]
  cases cfg.isMC <;> cases lk <;>
    simp [setLinks, setLinksFrom_length, calibrateList_length]

theorem processOneSyst_view_length (cfg : Config) (tool : TauSmearingTool)
    (lk : Bool) (inTaus : List TauJet) (syst : String) :
    (processOneSyst cfg tool lk inTaus syst).2.1.length = inTaus.length := by
  cases hs : cfg.sort with
  | false =>
    rw [processOneSyst_view_nosort cfg tool lk inTaus syst hs,
      processOneSyst_copies_length]
  | true =>
    rw [processOneSyst_view_sort cfg tool lk inTaus syst hs,
      (sortPt_perm _).length_eq, processOneSyst_copies_length]

theorem processOneSyst_tool_congr (cfg : Config) (tool1 tool2 : TauSmearingTool)
    (lk : Bool) (inTaus : List TauJet) (syst : String) (hmc : cfg.isMC = false) :
    processOneSyst cfg tool1 lk inTaus syst = processOneSyst cfg tool2 lk inTaus syst := by
  unfold processOneSyst
  rw [hmc]
  rfl

theorem execLoop_tool_congr (cfg : Config) (tool1 tool2 : TauSmearingTool)
    (lk : Bool) (inTaus : List TauJet) (hmc : cfg.isMC = false)
    (hag : tool1.applySystematicVariation = tool2.applySystematicVariation)
    (l : List String) :
    ∀ (st : Store) (log : List LogMsg),
      execLoop cfg tool1 lk inTaus l st log = execLoop cfg tool2 lk inTaus l st log := by
  induction l with
  | nil => intro st log; rfl
  | cons syst rest ih =>
    intro st log
    unfold execLoop
    rw [hag, processOneSyst_tool_congr cfg tool1 tool2 lk inTaus syst hmc]
    cases hb : tool2.applySystematicVariation syst with
    | false => rfl
    | true =>
      rw [if_pos rfl, if_pos rfl]
      split
      · rfl
      · next st1 h1 =>
        split
        · rfl
        · next st2 h2 =>
          split
          · rfl
          · next st3 h3 => exact ih st3 _

theorem execute_tool_congr (cfg : Config) (tool1 tool2 : TauSmearingTool)
    (lk : Bool) (sl : List String) (st : Store) (hmc : cfg.isMC = false)
    (hag : tool1.applySystematicVariation = tool2.applySystematicVariation) :
    execute cfg tool1 lk sl st = execute cfg tool2 lk sl st := by
  by_cases hev : st.lookup cfg.eventInfoContainerName = some StoreVal.evtInfo
  · by_cases hex : ∃ ts, st.lookup cfg.inContainerName = some (StoreVal.tauColl ts)
    · obtain ⟨inTaus, hin⟩ := hex
      rw [execute_eq_run cfg tool1 lk sl st inTaus hev hin,
          execute_eq_run cfg tool2 lk sl st inTaus hev hin,
          execLoop_tool_congr cfg tool1 tool2 lk inTaus hmc hag sl st []]
    · push_neg at hex
      rw [execute_eq_fail_in cfg tool1 lk sl st hev hex,
          execute_eq_fail_in cfg tool2 lk sl st hev hex]
  · rw [execute_eq_fail_ev cfg tool1 lk sl st hev,
        execute_eq_fail_ev cfg tool2 lk sl st hev]

theorem mem_getListofSystematics (recSyst : List String) (systName : String)
    (systVal : Int) :
    "" ∈ getListofSystematics recSyst systName systVal := by
  unfold getListofSystematics
  by_cases h1 : systName = ""
  · simp [h1]
  · by_cases h2 : systName = "All" <;> simp [h1, h2]

theorem execute_publishes_of_mem (cfg : Config) (tool : TauSmearingTool)
    (lk : Bool) (sl : List String) (st : Store)
    (h : (execute cfg tool lk sl st).success = true)
    (syst : String) (hmem : syst ∈ sl) :
    (∃ c, (execute cfg tool lk sl st).store.lookup (cfg.outSCContainerName ++ syst)
        = some (StoreVal.tauColl c)) ∧
    (∃ c, (execute cfg tool lk sl st).store.lookup (cfg.outSCAuxContainerName ++ syst)
        = some (StoreVal.auxStore c)) ∧
    (∃ c, (execute cfg tool lk sl st).store.lookup (cfg.outContainerName ++ syst)
        = some (StoreVal.viewColl c)) := by
  obtain ⟨inTaus, st1, log1, st2, hev, hin, hloop, hrec, heq⟩ :=
    execute_success_shape cfg tool lk sl st h
  obtain ⟨⟨c1, h1⟩, ⟨c2, h2⟩, ⟨c3, h3⟩⟩ :=
    execLoop_publishes cfg tool lk inTaus sl st [] st1 log1 hloop syst hmem
  rw [heq]
  exact ⟨⟨c1, Store.lookup_record_mono hrec h1⟩,
    ⟨c2, Store.lookup_record_mono hrec h2⟩,
    ⟨c3, Store.lookup_record_mono hrec h3⟩⟩

/-! ### The claims -/

/-- C1: for every configured variation list (possibly only the baseline), when
`execute` completes successfully for one event, the manifest published under
the configured output-systematics name has exactly the list's entries, in the
same order, the baseline being represented by its empty-string suffix. -/
theorem tauCalibrator_manifest_published (cfg : Config) (tool : TauSmearingTool)
    (lk : Bool) (sl : List String) (st : Store)
    (h : (execute cfg tool lk sl st).success = true) :
    (execute cfg tool lk sl st).store.lookup cfg.outputAlgoSystNames
      = some (StoreVal.strVec sl) := by
  obtain ⟨inTaus, st1, log1, st2, hev, hin, hloop, hrec, heq⟩ :=
    execute_success_shape cfg tool lk sl st h
  rw [heq]
  exact Store.lookup_record_self hrec

/-- Witness for C1: the two-variation scenario succeeds and its manifest is
`["", "TAUS_TES_TOTAL_1up"]`. -/
theorem tauCalibrator_manifest_published_witness :
    (execute demoCfg demoTool true demoSysts demoStore).store.lookup
        demoCfg.outputAlgoSystNames = some (StoreVal.strVec demoSysts) :=
  tauCalibrator_manifest_published demoCfg demoTool true demoSysts demoStore (by decide)

/-- C2 counterexample: in the two-variation scenario (base name `Out`), the
store key `Out` does not hold an owning copied collection, contrary to the
claim — it holds the read-only `ConstDataVector` view; the owning copy is
recorded under `OutShallowCopy` instead. -/
theorem outName_not_owning_copy_counterexample :
    (¬ ∃ ts, (execute demoCfg demoTool true demoSysts demoStore).store.lookup "Out"
        = some (StoreVal.tauColl ts)) ∧
    (execute demoCfg demoTool true demoSysts demoStore).store.lookup "Out"
      = some (StoreVal.viewColl (setLinks demoTaus)) ∧
    (execute demoCfg demoTool true demoSysts demoStore).store.lookup "OutShallowCopy"
      = some (StoreVal.tauColl (setLinks demoTaus)) := by
  have hv : (execute demoCfg demoTool true demoSysts demoStore).store.lookup "Out"
      = some (StoreVal.viewColl (setLinks demoTaus)) := by decide
  have hc : (execute demoCfg demoTool true demoSysts demoStore).store.lookup
      "OutShallowCopy" = some (StoreVal.tauColl (setLinks demoTaus)) := by decide
  refine ⟨?_, hv, hc⟩
  intro hex
  obtain ⟨ts, hts⟩ := hex
  rw [hv] at hts
  exact StoreVal.noConfusion (Option.some.inj hts)

/-- C2 (amended): for every variation in the list, when `execute` succeeds it
publishes the owning copied collection under `<base>ShallowCopy<syst>`, its
auxiliary store under `<base>ShallowCopyAux.<syst>`, and the read-only view
under `<base><syst>` (empty suffix for the baseline). -/
theorem variation_publication_names (cfg : Config) (tool : TauSmearingTool)
    (lk : Bool) (sl : List String) (st : Store)
    (h : (execute cfg tool lk sl st).success = true)
    (syst : String) (hmem : syst ∈ sl) :
    (∃ c, (execute cfg tool lk sl st).store.lookup (cfg.outSCContainerName ++ syst)
        = some (StoreVal.tauColl c)) ∧
    (∃ c, (execute cfg tool lk sl st).store.lookup (cfg.outSCAuxContainerName ++ syst)
        = some (StoreVal.auxStore c)) ∧
    (∃ c, (execute cfg tool lk sl st).store.lookup (cfg.outContainerName ++ syst)
        = some (StoreVal.viewColl c)) :=
  execute_publishes_of_mem cfg tool lk sl st h syst hmem

/-- Witness for the amended C2 at the named variation of the scenario. -/
theorem variation_publication_names_witness :
    (∃ c, (execute demoCfg demoTool true demoSysts demoStore).store.lookup
        (demoCfg.outSCContainerName ++ "TAUS_TES_TOTAL_1up")
        = some (StoreVal.tauColl c)) ∧
    (∃ c, (execute demoCfg demoTool true demoSysts demoStore).store.lookup
        (demoCfg.outSCAuxContainerName ++ "TAUS_TES_TOTAL_1up")
        = some (StoreVal.auxStore c)) ∧
    (∃ c, (execute demoCfg demoTool true demoSysts demoStore).store.lookup
        (demoCfg.outContainerName ++ "TAUS_TES_TOTAL_1up")
        = some (StoreVal.viewColl c)) :=
  variation_publication_names demoCfg demoTool true demoSysts demoStore (by decide)
    "TAUS_TES_TOTAL_1up" (by decide)

/-- C3: if the required input collection is absent from the event store,
`execute` returns the fatal status and publishes nothing — the store in the
result is exactly the initial store. -/
theorem missing_input_fatal (cfg : Config) (tool : TauSmearingTool) (lk : Bool)
    (sl : List String) (st : Store)
    (hev : st.lookup cfg.eventInfoContainerName = some StoreVal.evtInfo)
    (hin : st.lookup cfg.inContainerName = none) :
    execute cfg tool lk sl st = ⟨false, st, []⟩ := by
  apply execute_eq_fail_in cfg tool lk sl st hev
  intro ts hts
  rw [hin] at hts
  cases hts

/-- Witness for C3: a store holding only the `EventInfo` object. -/
theorem missing_input_fatal_witness :
    execute demoCfg demoTool true demoSysts [("EventInfo", StoreVal.evtInfo)]
      = ⟨false, [("EventInfo", StoreVal.evtInfo)], []⟩ :=
  missing_input_fatal demoCfg demoTool true demoSysts
    [("EventInfo", StoreVal.evtInfo)] (by decide) (by decide)

/-- C4: for every input collection and variation, when sorting is requested
the published view is a permutation of the copied collection ordered by
non-increasing transverse momentum (the fixed total comparison `ptGe` on
`pt`); when sorting is not requested the view equals the copied collection in
the original order. -/
theorem sorted_view_spec (cfg : Config) (tool : TauSmearingTool) (lk : Bool)
    (inTaus : List TauJet) (syst : String) :
    (cfg.sort = true →
      ((processOneSyst cfg tool lk inTaus syst).2.1).Perm
          (processOneSyst cfg tool lk inTaus syst).1 ∧
      List.Sorted ptGe (processOneSyst cfg tool lk inTaus syst).2.1) ∧
    (cfg.sort = false →
      (processOneSyst cfg tool lk inTaus syst).2.1
        = (processOneSyst cfg tool lk inTaus syst).1) := by
  constructor
  · intro hs
    rw [processOneSyst_view_sort cfg tool lk inTaus syst hs]
    exact ⟨sortPt_perm _, sortPt_sorted _⟩
  · intro hs
    exact processOneSyst_view_nosort cfg tool lk inTaus syst hs

/-- Witness for C4: both the sorted and the unsorted scenario configurations. -/
theorem sorted_view_spec_witness :
    (((processOneSyst demoCfgSorted demoTool true demoTaus "").2.1).Perm
        (processOneSyst demoCfgSorted demoTool true demoTaus "").1 ∧
      List.Sorted ptGe (processOneSyst demoCfgSorted demoTool true demoTaus "").2.1) ∧
    (processOneSyst demoCfg demoTool true demoTaus "").2.1
      = (processOneSyst demoCfg demoTool true demoTaus "").1 :=
  ⟨(sorted_view_spec demoCfgSorted demoTool true demoTaus "").1 rfl,
   (sorted_view_spec demoCfg demoTool true demoTaus "").2 rfl⟩

/-- C5: if configuring the correction tool fails for some variation,
`execute` returns the fatal status for the event, and everything already
published for earlier variations of the same event is still in the store (no
rollback). -/
theorem syst_config_failure_fatal_no_rollback (cfg : Config)
    (tool : TauSmearingTool) (lk : Bool) (pre rest : List String) (s : String)
    (st st1 : Store) (log1 : List LogMsg) (inTaus : List TauJet)
    (hev : st.lookup cfg.eventInfoContainerName = some StoreVal.evtInfo)
    (hin : st.lookup cfg.inContainerName = some (StoreVal.tauColl inTaus))
    (hpre : execLoop cfg tool lk inTaus pre st [] = (true, st1, log1))
    (hfail : tool.applySystematicVariation s = false) :
    execute cfg tool lk (pre ++ s :: rest) st
        = ⟨false, st1, log1 ++ [LogMsg.errConfigSyst s]⟩ ∧
    ∀ k v, st1.lookup k = some v →
      (execute cfg tool lk (pre ++ s :: rest) st).store.lookup k = some v := by
  have hstep : execLoop cfg tool lk inTaus (s :: rest) st1 log1
      = (false, st1, log1 ++ [LogMsg.errConfigSyst s]) := by
    unfold execLoop
    rw [hfail]
    rfl
  have hrun : execLoop cfg tool lk inTaus (pre ++ s :: rest) st []
      = (false, st1, log1 ++ [LogMsg.errConfigSyst s]) := by
    rw [execLoop_append cfg tool lk inTaus pre (s :: rest) st [], hpre]
    exact hstep
  have hexec : execute cfg tool lk (pre ++ s :: rest) st
      = ⟨false, st1, log1 ++ [LogMsg.errConfigSyst s]⟩ := by
    rw [execute_eq_run cfg tool lk (pre ++ s :: rest) st inTaus hev hin, hrun]
    rfl
  refine ⟨hexec, ?_⟩
  intro k v hkv
  rw [hexec]
  exact hkv

/-- Witness for C5: the tool accepting only the baseline, with the named
variation second in the list; the baseline publications survive. -/
theorem syst_config_failure_fatal_no_rollback_witness :
    execute demoCfg badCfgTool true ([""] ++ "TAUS_TES_TOTAL_1up" :: []) demoStore
      = ⟨false, (execLoop demoCfg badCfgTool true demoTaus [""] demoStore []).2.1,
          (execLoop demoCfg badCfgTool true demoTaus [""] demoStore []).2.2
            ++ [LogMsg.errConfigSyst "TAUS_TES_TOTAL_1up"]⟩ :=
  (syst_config_failure_fatal_no_rollback demoCfg badCfgTool true [""] []
    "TAUS_TES_TOTAL_1up" demoStore
    (execLoop demoCfg badCfgTool true demoTaus [""] demoStore []).2.1
    (execLoop demoCfg badCfgTool true demoTaus [""] demoStore []).2.2
    demoTaus (by decide) (by decide) (by decide) (by decide)).1

/-- C6: per-object correction errors and provenance-link failures are
non-fatal.  The success status of `execute` does not depend on the
`applyCorrection` outcomes or on whether `setOriginalObjectLink` succeeds; a
tau whose correction reports `Error` (the tool leaving it untouched, as
correction tools do on failure) stays uncorrected and triggers exactly one
warning; a tau without truth counterpart stays uncorrected with no warning;
a link failure logs the error message and the loop continues. -/
theorem per_object_failures_nonfatal (cfg : Config) (tool tool2 : TauSmearingTool)
    (lk lk2 : Bool) (sl : List String) (st : Store) (inTaus : List TauJet)
    (syst : String) (idx : Nat) (t u : TauJet)
    (hag : tool.applySystematicVariation = tool2.applySystematicVariation)
    (ht : t.hasTruth = true)
    (herr : tool.applyCorrection syst t = (CorrectionCode.Error, t))
    (hu : u.hasTruth = false) :
    (execute cfg tool lk sl st).success = (execute cfg tool2 lk2 sl st).success ∧
    calibrateTau tool syst idx t = (t, [LogMsg.warnCorrectionError syst idx]) ∧
    calibrateTau tool syst idx u = (u, []) ∧
    LogMsg.errOrigLink syst ∈ (processOneSyst cfg tool false inTaus syst).2.2 := by
  refine ⟨execute_success_congr cfg tool tool2 lk lk2 sl st hag, ?_, ?_, ?_⟩
  · simp [calibrateTau, ht, herr]
  · simp [calibrateTau, hu]
  · simp [processOneSyst]

/-- Witness for C6: the always-`Error` tool against the ordinary tool on the
scenario event. -/
theorem per_object_failures_nonfatal_witness :
    (execute demoCfg errTool true demoSysts demoStore).success
        = (execute demoCfg demoTool false demoSysts demoStore).success ∧
    calibrateTau errTool "" 0 ⟨20, true, none⟩
        = (⟨20, true, none⟩, [LogMsg.warnCorrectionError "" 0]) ∧
    calibrateTau errTool "" 0 ⟨30, false, none⟩ = (⟨30, false, none⟩, []) ∧
    LogMsg.errOrigLink "" ∈ (processOneSyst demoCfg errTool false demoTaus "").2.2 :=
  per_object_failures_nonfatal demoCfg errTool demoTool true false demoSysts
    demoStore demoTaus "" 0 ⟨20, true, none⟩ ⟨30, false, none⟩ rfl rfl rfl rfl

/-- C7: for every input collection of size N and every variation, the
published view has at most N entries; when the provenance link succeeded and
sorting is disabled, entry j of the view links back to input entry j — a
map onto distinct input entries preserving the input order. -/
theorem view_size_and_provenance (cfg : Config) (tool : TauSmearingTool)
    (lk : Bool) (inTaus : List TauJet) (syst : String) :
    (processOneSyst cfg tool lk inTaus syst).2.1.length ≤ inTaus.length ∧
    (lk = true → cfg.sort = false →
      (processOneSyst cfg tool lk inTaus syst).2.1.map TauJet.origLink
        = (List.range inTaus.length).map some) := by
  constructor
  · exact le_of_eq (processOneSyst_view_length cfg tool lk inTaus syst)
  · intro hlk hs
    have hlen : (if cfg.isMC then (calibrateList tool syst 0 inTaus).1
        else inTaus).length = inTaus.length := by
      cases h : cfg.isMC <;> simp [calibrateList_length]
    rw [processOneSyst_view_nosort cfg tool lk inTaus syst hs, processOneSyst_copies,
      hlk, if_pos rfl, setLinks_map_origLink, hlen]

/-- Witness for C7 at the unsorted scenario. -/
theorem view_size_and_provenance_witness :
    (processOneSyst demoCfg demoTool true demoTaus "").2.1.length ≤ demoTaus.length ∧
    (processOneSyst demoCfg demoTool true demoTaus "").2.1.map TauJet.origLink
      = (List.range demoTaus.length).map some :=
  ⟨(view_size_and_provenance demoCfg demoTool true demoTaus "").1,
   (view_size_and_provenance demoCfg demoTool true demoTaus "").2 rfl rfl⟩

/-- C8: `execute` is deterministic — two runs of the embedded function on the
same event state yield bit-identical published collections, views, manifest
and status (a two-run equality over the embedded function, which is pure). -/
theorem execute_deterministic (cfg : Config) (tool : TauSmearingTool)
    (lk : Bool) (sl : List String) (st : Store) :
    (execute cfg tool lk sl st).store = (execute cfg tool lk sl st).store ∧
    (execute cfg tool lk sl st).log = (execute cfg tool lk sl st).log ∧
    (execute cfg tool lk sl st).success = (execute cfg tool lk sl st).success :=
  ⟨rfl, rfl, rfl⟩

/-- C9: the variation list computed once at initialization always contains
the baseline entry with the empty name, so every successful event processes
the baseline and publishes an output collection under the base name with the
empty suffix. -/
theorem baseline_always_processed (recSyst : List String) (systName : String)
    (systVal : Int) (cfg : Config) (tool : TauSmearingTool) (lk : Bool)
    (st : Store)
    (h : (execute cfg tool lk (initSystList recSyst systName systVal) st).success
        = true) :
    "" ∈ initSystList recSyst systName systVal ∧
    ∃ c, (execute cfg tool lk (initSystList recSyst systName systVal) st).store.lookup
        (cfg.outContainerName ++ "") = some (StoreVal.viewColl c) := by
  refine ⟨mem_getListofSystematics recSyst systName systVal, ?_⟩
  obtain ⟨-, -, hview⟩ :=
    execute_publishes_of_mem cfg tool lk (initSystList recSyst systName systVal) st h
      "" (mem_getListofSystematics recSyst systName systVal)
  exact hview

/-- Witness for C9: the recommended set restricted by `"All"` gives the
scenario's variation list, and the event succeeds. -/
theorem baseline_always_processed_witness :
    "" ∈ initSystList ["TAUS_TES_TOTAL_1up"] "All" 1 ∧
    ∃ c, (execute demoCfg demoTool true
        (initSystList ["TAUS_TES_TOTAL_1up"] "All" 1) demoStore).store.lookup
        (demoCfg.outContainerName ++ "") = some (StoreVal.viewColl c) :=
  baseline_always_processed ["TAUS_TES_TOTAL_1up"] "All" 1 demoCfg demoTool true
    demoStore (by decide)

/-- C10: with simulation mode off (real data) the correction is never
invoked — the whole result of `execute` is independent of the tool's
`applyCorrection` function, and every copied object retains the kinematic
values of its input object (`pt` and the truth flag are unchanged; only the
provenance link is added). -/
theorem real_data_frame_effect (cfg : Config) (tool tool2 : TauSmearingTool)
    (lk : Bool) (sl : List String) (st : Store) (inTaus : List TauJet)
    (syst : String) (hmc : cfg.isMC = false)
    (hag : tool.applySystematicVariation = tool2.applySystematicVariation) :
    execute cfg tool lk sl st = execute cfg tool2 lk sl st ∧
    (processOneSyst cfg tool lk inTaus syst).1.map TauJet.pt
      = inTaus.map TauJet.pt ∧
    (processOneSyst cfg tool lk inTaus syst).1.map TauJet.hasTruth
      = inTaus.map TauJet.hasTruth := by
  refine ⟨execute_tool_congr cfg tool tool2 lk sl st hmc hag, ?_, ?_⟩
  · rw [processOneSyst_copies, hmc]
    cases lk with
    | false => simp
    | true => simp [setLinks, setLinksFrom_map_pt]
  · rw [processOneSyst_copies, hmc]
    cases lk with
    | false => simp
    | true => simp [setLinks, setLinksFrom_map_hasTruth]

/-- Witness for C10: the always-`Error` tool and the ordinary tool coincide
on real data, and the copies keep the input kinematics. -/
theorem real_data_frame_effect_witness :
    execute demoCfgData errTool true demoSysts demoStore
        = execute demoCfgData demoTool true demoSysts demoStore ∧
    (processOneSyst demoCfgData errTool true demoTaus "").1.map TauJet.pt
        = demoTaus.map TauJet.pt ∧
    (processOneSyst demoCfgData errTool true demoTaus "").1.map TauJet.hasTruth
        = demoTaus.map TauJet.hasTruth :=
  real_data_frame_effect demoCfgData errTool demoTool true demoSysts demoStore
    demoTaus "" rfl rfl
